import Mathlib

/-!
Verification of the uniform spatial grid in `src/uniform_grid.cpp`
(`UniformGrid`: construction, `Clear`, `Add`, `BuildInstanced`, `Query`,
`QueryRay`).  The C++ float arithmetic is embedded with exact rationals
(`ℚ`); `int` becomes `ℤ`, `std::vector<std::vector<int>>` becomes
`List (List ℤ)`.  The `std::set<int>` accumulator used by both query
functions iterates in increasing order, so a query result is modelled as
the sorted deduplication of the collected indices.
-/

/-- Mirror of raylib's `Vector3` (components embedded as rationals). -/
structure Vec3 where
  x : ℚ
  y : ℚ
  z : ℚ
deriving DecidableEq, Repr

/-- Mirror of the `Vector3Int` helper struct of `uniform_grid.h`. -/
structure Vector3Int where
  x : ℤ
  y : ℤ
  z : ℤ
deriving DecidableEq, Repr

/-- Mirror of raylib's `BoundingBox`: a min corner and a max corner. -/
structure Box3 where
  min : Vec3
  max : Vec3
deriving DecidableEq, Repr

/-- The fields of `Asteroid` (from `asteroid_field.h`) that
`UniformGrid::BuildInstanced` reads: position, collision radius and the
activity flag. -/
structure Asteroid where
  position : Vec3
  collisionRadius : ℚ
  isActive : Bool
deriving DecidableEq, Repr

/-- Mirror of raylib's `Ray`: origin position and direction. -/
structure Ray3 where
  position : Vec3
  direction : Vec3
deriving DecidableEq, Repr

/-- `Vector3LengthSqr` from raymath. -/
def vector3LengthSqr (v : Vec3) : ℚ :=
  v.x * v.x + v.y * v.y + v.z * v.z

/-- State of a `UniformGrid` object: the geometry fields fixed by the
constructor and the per-cell index lists `gridCells`. -/
structure UniformGrid where
  gridMinBounds : Vec3
  gridMaxBounds : Vec3
  gridCellSize : Vec3
  gridDimX : ℤ
  gridDimY : ℤ
  gridDimZ : ℤ
  totalCells : ℤ
  gridCells : List (List ℤ)
deriving DecidableEq, Repr

/-- The constructor `UniformGrid::UniformGrid(worldMin, worldMax, cellSize)`:
each non-positive cell-size component is replaced by `1.0`, each dimension is
`ceil(extent / cellSize)` clamped to at least `1`, and
`gridDimX * gridDimY * gridDimZ` empty cells are allocated. -/
def mkUniformGrid (worldMin worldMax cellSize : Vec3) : UniformGrid :=
  let csx : ℚ := if cellSize.x ≤ 0 then 1 else cellSize.x
  let csy : ℚ := if cellSize.y ≤ 0 then 1 else cellSize.y
  let csz : ℚ := if cellSize.z ≤ 0 then 1 else cellSize.z
  let dx0 : ℤ := Int.ceil ((worldMax.x - worldMin.x) / csx)
  let dy0 : ℤ := Int.ceil ((worldMax.y - worldMin.y) / csy)
  let dz0 : ℤ := Int.ceil ((worldMax.z - worldMin.z) / csz)
  let dx : ℤ := if dx0 ≤ 0 then 1 else dx0
  let dy : ℤ := if dy0 ≤ 0 then 1 else dy0
  let dz : ℤ := if dz0 ≤ 0 then 1 else dz0
  { gridMinBounds := worldMin
    gridMaxBounds := worldMax
    gridCellSize := ⟨csx, csy, csz⟩
    gridDimX := dx
    gridDimY := dy
    gridDimZ := dz
    totalCells := dx * dy * dz
    gridCells := List.replicate (dx * dy * dz).toNat [] }

/-- One axis of `UniformGrid::GetCellIndices`: floor of the cell-size
quotient of the offset from the grid minimum, clamped into `[0, dim-1]`
(the C++ clamp is `max(0, min(i, dim - 1))`). -/
def cellCoord (minB cs : ℚ) (dim : ℤ) (x : ℚ) : ℤ :=
  max 0 (min (Int.floor ((x - minB) / cs)) (dim - 1))

namespace UniformGrid

/-- `UniformGrid::GetCellIndices(worldPos)`. -/
def GetCellIndices (g : UniformGrid) (worldPos : Vec3) : Vector3Int :=
  ⟨cellCoord g.gridMinBounds.x g.gridCellSize.x g.gridDimX worldPos.x,
   cellCoord g.gridMinBounds.y g.gridCellSize.y g.gridDimY worldPos.y,
   cellCoord g.gridMinBounds.z g.gridCellSize.z g.gridDimZ worldPos.z⟩

/-- `UniformGrid::IsValidIndex(ix, iy, iz)`. -/
def IsValidIndex (g : UniformGrid) (ix iy iz : ℤ) : Bool :=
  decide (0 ≤ ix ∧ ix < g.gridDimX ∧ 0 ≤ iy ∧ iy < g.gridDimY ∧
          0 ≤ iz ∧ iz < g.gridDimZ)

/-- `UniformGrid::Get1DIndex(ix, iy, iz) = ix + iy*dimX + iz*dimX*dimY`. -/
def Get1DIndex (g : UniformGrid) (ix iy iz : ℤ) : ℤ :=
  ix + iy * g.gridDimX + iz * g.gridDimX * g.gridDimY

/-- `UniformGrid::Clear()`: the loop `for (i = 0; i < totalCells; ++i)`
empties the index list of cell `i`, so afterwards a cell is empty exactly
when its index is below `totalCells` (and unchanged otherwise). -/
def Clear (g : UniformGrid) : UniformGrid :=
  { g with gridCells :=
      g.gridCells.enum.map (fun p => if (p.1 : ℤ) < g.totalCells then [] else p.2) }

end UniformGrid

/-- Inclusive integer range `[a, b]` as a list (empty when `b < a`),
modelling a C++ `for (i = a; i <= b; ++i)` loop. -/
def intRange (a b : ℤ) : List ℤ :=
  (List.range (b + 1 - a).toNat).map (fun (n : ℕ) => a + (n : ℤ))

/-- Body of the innermost loop of `UniformGrid::Add`: if the coordinate
triple is valid and the linear cell index passes the defensive range check
against `gridCells.size()`, append the instance index to that cell. -/
def addOne (g : UniformGrid) (instanceIndex : ℤ) (cells : List (List ℤ))
    (t : ℤ × ℤ × ℤ) : List (List ℤ) :=
  if g.IsValidIndex t.1 t.2.1 t.2.2 then
    let cellIndex := g.Get1DIndex t.1 t.2.1 t.2.2
    if 0 ≤ cellIndex ∧ cellIndex < (cells.length : ℤ) then
      cells.set cellIndex.toNat (cells.getD cellIndex.toNat [] ++ [instanceIndex])
    else cells
  else cells

namespace UniformGrid

/-- The coordinate triples visited by the triple loop of
`UniformGrid::Add`, in C++ loop order (`iz` outermost, `ix` innermost). -/
def addTriples (minI maxI : Vector3Int) : List (ℤ × ℤ × ℤ) :=
  (intRange minI.z maxI.z).flatMap (fun iz =>
    (intRange minI.y maxI.y).flatMap (fun iy =>
      (intRange minI.x maxI.x).map (fun ix => (ix, iy, iz))))

/-- `UniformGrid::Add(instanceIndex, worldBounds)`: clamp both box corners
to cell coordinates and append the index to every cell of the inclusive
coordinate box. -/
def Add (g : UniformGrid) (instanceIndex : ℤ) (worldBounds : Box3) : UniformGrid :=
  let minI := g.GetCellIndices worldBounds.min
  let maxI := g.GetCellIndices worldBounds.max
  { g with gridCells :=
      (addTriples minI maxI).foldl (addOne g instanceIndex) g.gridCells }

end UniformGrid

/-- Effective insertion radius used by `UniformGrid::BuildInstanced`: the
collision radius, or `0.5` when the collision radius is non-positive. -/
def effRadius (a : Asteroid) : ℚ :=
  if a.collisionRadius ≤ 0 then 1/2 else a.collisionRadius

/-- Approximate world bounds built by `UniformGrid::BuildInstanced`:
`position ± r` on each axis, with `r` the effective radius. -/
def codeBox (a : Asteroid) : Box3 :=
  ⟨⟨a.position.x - effRadius a, a.position.y - effRadius a, a.position.z - effRadius a⟩,
   ⟨a.position.x + effRadius a, a.position.y + effRadius a, a.position.z + effRadius a⟩⟩

/-- One iteration of the loop of `UniformGrid::BuildInstanced`: skip
inactive instances; otherwise add the instance index under its
approximate world bounds. -/
def buildStep (g : UniformGrid) (p : ℕ × Asteroid) : UniformGrid :=
  if p.2.isActive then g.Add (p.1 : ℤ) (codeBox p.2) else g

namespace UniformGrid

/-- `UniformGrid::BuildInstanced(instances)`: `Clear()`, then add each
active instance, indexed by its position in the sequence. -/
def BuildInstanced (g : UniformGrid) (instances : List Asteroid) : UniformGrid :=
  instances.enum.foldl buildStep g.Clear

end UniformGrid

/-- Insertion into the sorted duplicate-free element list of a
`std::set<int>`: already-present elements are ignored. -/
def setInsert (a : ℤ) : List ℤ → List ℤ
  | [] => [a]
  | b :: l => if a < b then a :: b :: l else if a = b then b :: l else b :: setInsert a l

/-- The sorted duplicate-free list obtained by iterating a `std::set<int>`
filled with the given elements in order. -/
def sortedUnique (l : List ℤ) : List ℤ :=
  l.foldl (fun s a => setInsert a s) []

/-- The three neighbor offsets `-1, 0, 1` of a `Query` loop axis. -/
def queryOffsets : List ℤ := [-1, 0, 1]

namespace UniformGrid

/-- Contents of the cell holding the given coordinate triple, guarded by
the defensive range check of the C++ code (out of range reads nothing). -/
def cellAt (g : UniformGrid) (ix iy iz : ℤ) : List ℤ :=
  let cellIndex := g.Get1DIndex ix iy iz
  if 0 ≤ cellIndex ∧ cellIndex < (g.gridCells.length : ℤ) then
    g.gridCells.getD cellIndex.toNat []
  else []

/-- Indices collected by the 3×3×3 loop of `UniformGrid::Query` around a
center cell, in C++ loop order (`dz` outermost, `dx` innermost). -/
def queryCollect (g : UniformGrid) (c : Vector3Int) : List ℤ :=
  queryOffsets.flatMap (fun dz =>
    queryOffsets.flatMap (fun dy =>
      queryOffsets.flatMap (fun dx =>
        let cx := c.x + dx
        let cy := c.y + dy
        let cz := c.z + dz
        if g.IsValidIndex cx cy cz then g.cellAt cx cy cz else [])))

/-- `UniformGrid::Query(worldPos)`: the deduplicated union of the 27 cells
around the clamped cell of `worldPos`. -/
def Query (g : UniformGrid) (worldPos : Vec3) : List ℤ :=
  sortedUnique (g.queryCollect (g.GetCellIndices worldPos))

end UniformGrid

/-- Extended ray parameter: `none` stands for the float `+infinity` used by
`QueryRay` for axes whose direction component is negligible. -/
def OQ := Option ℚ

/-- Strict comparison of extended ray parameters; `infinity < t` is false
and `t < infinity` is true for finite `t`, matching IEEE float order. -/
def oLt : Option ℚ → Option ℚ → Bool
  | none, _ => false
  | some _, none => true
  | some a, some b => decide (a < b)

/-- Comparison of an extended ray parameter with a finite bound. -/
def oLtQ : Option ℚ → ℚ → Bool
  | none, _ => false
  | some a, m => decide (a < m)

/-- Addition of extended ray parameters (`infinity + t = infinity`). -/
def oAdd : Option ℚ → Option ℚ → Option ℚ
  | some a, some b => some (a + b)
  | _, _ => none

/-- Per-axis data of `QueryRay` that never changes during traversal: the
unit steps and the `tDelta` increments. -/
structure RayParams where
  stepX : ℤ
  stepY : ℤ
  stepZ : ℤ
  tDeltaX : Option ℚ
  tDeltaY : Option ℚ
  tDeltaZ : Option ℚ
deriving Repr

/-- Mutable state of the `QueryRay` traversal loop: current cell
coordinates, per-axis `tMax`, and the running distance `currentT`. -/
structure RayState where
  ix : ℤ
  iy : ℤ
  iz : ℤ
  tMaxX : Option ℚ
  tMaxY : Option ℚ
  tMaxZ : Option ℚ
  currentT : Option ℚ
deriving Repr

/-- One advance of the `QueryRay` loop: exactly the nested comparisons of
the C++ code (`tMaxX < tMaxY`, then against `tMaxZ`), so on equal values
the `z` axis is preferred over `y`, and `y` over `x`. -/
def rayStep (p : RayParams) (s : RayState) : RayState :=
  if oLt s.tMaxX s.tMaxY then
    if oLt s.tMaxX s.tMaxZ then
      { s with currentT := s.tMaxX, tMaxX := oAdd s.tMaxX p.tDeltaX, ix := s.ix + p.stepX }
    else
      { s with currentT := s.tMaxZ, tMaxZ := oAdd s.tMaxZ p.tDeltaZ, iz := s.iz + p.stepZ }
  else
    if oLt s.tMaxY s.tMaxZ then
      { s with currentT := s.tMaxY, tMaxY := oAdd s.tMaxY p.tDeltaY, iy := s.iy + p.stepY }
    else
      { s with currentT := s.tMaxZ, tMaxZ := oAdd s.tMaxZ p.tDeltaZ, iz := s.iz + p.stepZ }

/-- The `while (currentT < maxDistance)` loop of `QueryRay`, written with
explicit fuel.  Each iteration advances one axis, breaks when the new
`currentT` reaches `maxDistance` or the new cell is invalid, and otherwise
records the entered cell (under the defensive range check) and repeats.
The fuel is only a recursion bound: `rayLoop_fuel_high` below proves that
any fuel of at least `fuelBound` yields the same result, so the loop
faithfully models the unbounded C++ loop. -/
def rayLoop (g : UniformGrid) (p : RayParams) (maxDistance : ℚ) :
    Nat → RayState → List ℤ → List ℤ
  | 0, _, acc => acc
  | fuel + 1, s, acc =>
    if oLtQ s.currentT maxDistance then
      let s1 := rayStep p s
      if oLtQ s1.currentT maxDistance = false then acc
      else if g.IsValidIndex s1.ix s1.iy s1.iz = false then acc
      else rayLoop g p maxDistance fuel s1 (acc ++ g.cellAt s1.ix s1.iy s1.iz)
    else acc

/-- Fuel that is always sufficient for `rayLoop` (shown by
`rayLoop_fuel_high`): one more than the sum of the grid dimensions. -/
def fuelBound (g : UniformGrid) : Nat :=
  (g.gridDimX + g.gridDimY + g.gridDimZ).toNat + 1

namespace UniformGrid

/-- `tMax` initialisation for one axis of `QueryRay`: finite only when the
direction component is non-negligible. -/
def tMaxInit (minB cs : ℚ) (i : ℤ) (pos dir : ℚ) (step : ℤ) : Option ℚ :=
  if 1/10000 < |dir| then
    some (((if 0 < step then ((i + 1 : ℤ) : ℚ) * cs + minB else (i : ℚ) * cs + minB) - pos) / dir)
  else none

/-- `tDelta` initialisation for one axis of `QueryRay`. -/
def tDeltaInit (cs dir : ℚ) : Option ℚ :=
  if 1/10000 < |dir| then some |cs / dir| else none

/-- The per-axis step sign of `QueryRay`: `+1` when the direction
component is at least `0`, else `-1`. -/
def stepOf (dir : ℚ) : ℤ :=
  if 0 ≤ dir then 1 else -1

/-- The fixed per-axis traversal data computed by `QueryRay` before its
loop. -/
def rayParamsOf (g : UniformGrid) (ray : Ray3) : RayParams :=
  ⟨stepOf ray.direction.x, stepOf ray.direction.y, stepOf ray.direction.z,
   tDeltaInit g.gridCellSize.x ray.direction.x,
   tDeltaInit g.gridCellSize.y ray.direction.y,
   tDeltaInit g.gridCellSize.z ray.direction.z⟩

/-- The initial traversal state of `QueryRay`: the clamped start cell of
the ray origin, the per-axis `tMax` values and `currentT = 0`. -/
def rayStateInit (g : UniformGrid) (ray : Ray3) : RayState :=
  let c := g.GetCellIndices ray.position
  ⟨c.x, c.y, c.z,
   tMaxInit g.gridMinBounds.x g.gridCellSize.x c.x ray.position.x ray.direction.x
     (stepOf ray.direction.x),
   tMaxInit g.gridMinBounds.y g.gridCellSize.y c.y ray.position.y ray.direction.y
     (stepOf ray.direction.y),
   tMaxInit g.gridMinBounds.z g.gridCellSize.z c.z ray.position.z ray.direction.z
     (stepOf ray.direction.z),
   some 0⟩

/-- Indices recorded by `QueryRay` for the start cell before the loop
runs (nothing when the start cell is invalid). -/
def rayAccInit (g : UniformGrid) (ray : Ray3) : List ℤ :=
  let c := g.GetCellIndices ray.position
  if g.IsValidIndex c.x c.y c.z then g.cellAt c.x c.y c.z else []

/-- `UniformGrid::QueryRay` with explicit fuel for the traversal loop:
degenerate directions fall back to `Query(position)`; otherwise the start
cell is recorded and the grid is walked by `rayLoop`. -/
def QueryRayFuel (g : UniformGrid) (ray : Ray3) (maxDistance : ℚ) (fuel : Nat) : List ℤ :=
  if vector3LengthSqr ray.direction < 1/10000 then g.Query ray.position
  else
    sortedUnique
      (rayLoop g (rayParamsOf g ray) maxDistance fuel (rayStateInit g ray) (rayAccInit g ray))

/-- `UniformGrid::QueryRay(ray, maxDistance)`. -/
def QueryRay (g : UniformGrid) (ray : Ray3) (maxDistance : ℚ) : List ℤ :=
  g.QueryRayFuel ray maxDistance (fuelBound g)

end UniformGrid

/-! Well-formedness of a grid: positive cell sizes, dimensions at least
one, and exactly `totalCells = dimX * dimY * dimZ` allocated cells.  The
constructor establishes it and every operation preserves it. -/

def WF (g : UniformGrid) : Prop :=
  1 ≤ g.gridDimX ∧ 1 ≤ g.gridDimY ∧ 1 ≤ g.gridDimZ ∧
  0 < g.gridCellSize.x ∧ 0 < g.gridCellSize.y ∧ 0 < g.gridCellSize.z ∧
  g.totalCells = g.gridDimX * g.gridDimY * g.gridDimZ ∧
  (g.gridCells.length : ℤ) = g.totalCells

instance (g : UniformGrid) : Decidable (WF g) := by
  unfold WF
  infer_instance

/-! Geometry preservation: `Clear`, `Add` and `BuildInstanced` change only
cell contents, never the geometry fields or the number of allocated
cells. -/

def SameGeom (g g' : UniformGrid) : Prop :=
  g'.gridMinBounds = g.gridMinBounds ∧ g'.gridCellSize = g.gridCellSize ∧
  g'.gridDimX = g.gridDimX ∧ g'.gridDimY = g.gridDimY ∧ g'.gridDimZ = g.gridDimZ ∧
  g'.totalCells = g.totalCells ∧ g'.gridCells.length = g.gridCells.length

def stepsOK (p : RayParams) : Prop :=
  (p.stepX = 1 ∨ p.stepX = -1) ∧ (p.stepY = 1 ∨ p.stepY = -1) ∧ (p.stepZ = 1 ∨ p.stepZ = -1)

def axisRem (dim step i : ℤ) : ℤ :=
  if step = 1 then dim - i else i + 1

def remSum (g : UniformGrid) (p : RayParams) (s : RayState) : ℤ :=
  axisRem g.gridDimX p.stepX s.ix + axisRem g.gridDimY p.stepY s.iy +
    axisRem g.gridDimZ p.stepZ s.iz

/-! An alternative traversal for comparison, following the spec's
suggested tie-break: on equal `tMax` values advance `x` before `y` before
`z` (the implemented loop prefers `z`, then `y`).  Everything else is
identical to `rayLoop`. -/

/-- Non-strict comparison of extended ray parameters. -/
def oLe (a b : Option ℚ) : Bool :=
  !(oLt b a)

/-- Modelled from the spec: one advance of the traversal that on ties
advances `x` before `y` before `z`, as the flagged open question in the
spec describes; compare with the implemented `rayStep`. -/
def rayStepXFirst (p : RayParams) (s : RayState) : RayState :=
  if oLe s.tMaxX s.tMaxY && oLe s.tMaxX s.tMaxZ then
    { s with currentT := s.tMaxX, tMaxX := oAdd s.tMaxX p.tDeltaX, ix := s.ix + p.stepX }
  else if oLe s.tMaxY s.tMaxZ then
    { s with currentT := s.tMaxY, tMaxY := oAdd s.tMaxY p.tDeltaY, iy := s.iy + p.stepY }
  else
    { s with currentT := s.tMaxZ, tMaxZ := oAdd s.tMaxZ p.tDeltaZ, iz := s.iz + p.stepZ }

/-- Modelled from the spec: the traversal loop with the x-first tie-break
step; otherwise identical to `rayLoop`. -/
def rayLoopXFirst (g : UniformGrid) (p : RayParams) (maxDistance : ℚ) :
    Nat → RayState → List ℤ → List ℤ
  | 0, _, acc => acc
  | fuel + 1, s, acc =>
    if oLtQ s.currentT maxDistance then
      let s1 := rayStepXFirst p s
      if oLtQ s1.currentT maxDistance = false then acc
      else if g.IsValidIndex s1.ix s1.iy s1.iz = false then acc
      else rayLoopXFirst g p maxDistance fuel s1 (acc ++ g.cellAt s1.ix s1.iy s1.iz)
    else acc

namespace UniformGrid

/-- Modelled from the spec: `QueryRay` with the x-first tie-break
traversal in place of the implemented one; everything else identical. -/
def QueryRayXFirst (g : UniformGrid) (ray : Ray3) (maxDistance : ℚ) : List ℤ :=
  if vector3LengthSqr ray.direction < 1/10000 then g.Query ray.position
  else
    sortedUnique
      (rayLoopXFirst g (g.rayParamsOf ray) maxDistance (fuelBound g) (g.rayStateInit ray)
        (g.rayAccInit ray))

end UniformGrid

/-! Concrete scenarios used by the spec's testable properties. -/

/-- The grid of the spec's concrete scenario: bounds `[-50, 50]` on each
axis, cell size `10`. -/
def gridC2 : UniformGrid := mkUniformGrid ⟨-50, -50, -50⟩ ⟨50, 50, 50⟩ ⟨10, 10, 10⟩

/-- The object of the spec's concrete scenario: position `(5,5,5)`,
radius `1`, active. -/
def objC2 : Asteroid := ⟨⟨5, 5, 5⟩, 1, true⟩

/-- An inactive copy of the scenario object. -/
def objC2off : Asteroid := ⟨⟨5, 5, 5⟩, 1, false⟩

/-- A small 2×2×1 grid on `[0,2]×[0,2]×[0,1]` with unit cells, used to
compare ray tie-break orders. -/
def gridC6 : UniformGrid := mkUniformGrid ⟨0, 0, 0⟩ ⟨2, 2, 1⟩ ⟨1, 1, 1⟩

/-- An object occupying only the cell `(1,0,0)` of `gridC6`. -/
def objC6 : Asteroid := ⟨⟨3/2, 1/2, 1/2⟩, 1/4, true⟩

/-- A diagonal ray through the corner shared by the four cells of
`gridC6`: both `tMax` values are `1/2` at the first advance. -/
def rayC6 : Ray3 := ⟨⟨1/2, 1/2, 1/2⟩, ⟨1, 1, 0⟩⟩

/-! Basic lemmas about list access, `setInsert` and `sortedUnique`. -/

lemma getD_set_self {α : Type} (l : List α) (i : ℕ) (v d : α) (h : i < l.length) :
    (l.set i v).getD i d = v := by
  induction l generalizing i with
  | nil => simp at h
  | cons a t ih =>
    cases i with
    | zero => rfl
    | succ n => simpa using ih n (by simpa using h)

lemma getD_set_ne {α : Type} (l : List α) (i j : ℕ) (v d : α) (h : i ≠ j) :
    (l.set i v).getD j d = l.getD j d := by
  induction l generalizing i j with
  | nil => rfl
  | cons a t ih =>
    cases i with
    | zero =>
      cases j with
      | zero => exact absurd rfl h
      | succ m => rfl
    | succ n =>
      cases j with
      | zero => rfl
      | succ m => simpa using ih n m (by omega)

lemma mem_setInsert (a b : ℤ) (l : List ℤ) : a ∈ setInsert b l ↔ a = b ∨ a ∈ l := by
  induction l with
  | nil => simp [setInsert]
  | cons c t ih =>
    simp only [setInsert]
    split_ifs with h1 h2
    · simp only [List.mem_cons]
    · subst h2
      simp only [List.mem_cons]
      tauto
    · simp only [List.mem_cons, ih]
      tauto

lemma mem_foldl_setInsert (a : ℤ) (l s : List ℤ) :
    a ∈ l.foldl (fun s x => setInsert x s) s ↔ a ∈ s ∨ a ∈ l := by
  induction l generalizing s with
  | nil => simp
  | cons b t ih =>
    simp only [List.foldl_cons, ih, mem_setInsert, List.mem_cons]
    tauto

lemma mem_sortedUnique (a : ℤ) (l : List ℤ) : a ∈ sortedUnique l ↔ a ∈ l := by
  simp [sortedUnique, mem_foldl_setInsert]

lemma mem_intRange (t a b : ℤ) : t ∈ intRange a b ↔ a ≤ t ∧ t ≤ b := by
  constructor
  · intro ht
    obtain ⟨n, hn, hEq⟩ := List.mem_map.mp ht
    have hn2 := List.mem_range.mp hn
    omega
  · intro h
    exact List.mem_map.mpr ⟨(t - a).toNat, List.mem_range.mpr (by omega), by omega⟩

/-! Lemmas about the clamped cell coordinate. -/

lemma cellCoord_nonneg (minB cs : ℚ) (dim : ℤ) (x : ℚ) : 0 ≤ cellCoord minB cs dim x :=
  le_max_left 0 _

lemma cellCoord_le (minB cs : ℚ) (dim : ℤ) (x : ℚ) (h : 1 ≤ dim) :
    cellCoord minB cs dim x ≤ dim - 1 := by
  unfold cellCoord
  rcases le_total (Int.floor ((x - minB) / cs)) (dim - 1) with h1 | h1 <;> omega

lemma cellCoord_mono (minB cs : ℚ) (dim : ℤ) (x1 x2 : ℚ) (hcs : 0 < cs) (h : x1 ≤ x2) :
    cellCoord minB cs dim x1 ≤ cellCoord minB cs dim x2 := by
  unfold cellCoord
  have hd : (x1 - minB) / cs ≤ (x2 - minB) / cs :=
    div_le_div_of_nonneg_right (by linarith) hcs.le
  have hf := Int.floor_le_floor hd
  omega

lemma wf_mk (wm wM cs : Vec3) : WF (mkUniformGrid wm wM cs) := by
  have hx : (0:ℚ) < (if cs.x ≤ 0 then 1 else cs.x) := by
    split
    · norm_num
    · rename_i h
      exact lt_of_not_le h
  have hy : (0:ℚ) < (if cs.y ≤ 0 then 1 else cs.y) := by
    split
    · norm_num
    · rename_i h
      exact lt_of_not_le h
  have hz : (0:ℚ) < (if cs.z ≤ 0 then 1 else cs.z) := by
    split
    · norm_num
    · rename_i h
      exact lt_of_not_le h
  have hdx : (1:ℤ) ≤ (if Int.ceil ((wM.x - wm.x) / if cs.x ≤ 0 then 1 else cs.x) ≤ 0 then 1
      else Int.ceil ((wM.x - wm.x) / if cs.x ≤ 0 then 1 else cs.x)) := by split <;> omega
  have hdy : (1:ℤ) ≤ (if Int.ceil ((wM.y - wm.y) / if cs.y ≤ 0 then 1 else cs.y) ≤ 0 then 1
      else Int.ceil ((wM.y - wm.y) / if cs.y ≤ 0 then 1 else cs.y)) := by split <;> omega
  have hdz : (1:ℤ) ≤ (if Int.ceil ((wM.z - wm.z) / if cs.z ≤ 0 then 1 else cs.z) ≤ 0 then 1
      else Int.ceil ((wM.z - wm.z) / if cs.z ≤ 0 then 1 else cs.z)) := by split <;> omega
  refine ⟨hdx, hdy, hdz, hx, hy, hz, ?_, ?_⟩
  · rfl
  · show ((List.replicate _ ([] : List ℤ)).length : ℤ) = _
    rw [List.length_replicate, Int.toNat_of_nonneg (by positivity)]
    rfl

lemma sameGeom_refl (g : UniformGrid) : SameGeom g g :=
  ⟨rfl, rfl, rfl, rfl, rfl, rfl, rfl⟩

lemma sameGeom_trans {g g' g'' : UniformGrid} (h1 : SameGeom g g') (h2 : SameGeom g' g'') :
    SameGeom g g'' := by
  obtain ⟨a1, a2, a3, a4, a5, a6, a7⟩ := h1
  obtain ⟨b1, b2, b3, b4, b5, b6, b7⟩ := h2
  exact ⟨b1.trans a1, b2.trans a2, b3.trans a3, b4.trans a4, b5.trans a5,
    b6.trans a6, b7.trans a7⟩

lemma length_addOne (g : UniformGrid) (i : ℤ) (cells : List (List ℤ)) (t : ℤ × ℤ × ℤ) :
    (addOne g i cells t).length = cells.length := by
  unfold addOne
  split
  · dsimp only
    split
    · simp [List.length_set]
    · rfl
  · rfl

lemma length_foldl_addOne (g : UniformGrid) (i : ℤ) :
    ∀ (l : List (ℤ × ℤ × ℤ)) (cells : List (List ℤ)),
      (l.foldl (addOne g i) cells).length = cells.length := by
  intro l
  induction l with
  | nil => intro cells; rfl
  | cons t rest ih =>
    intro cells
    rw [List.foldl_cons, ih, length_addOne]

lemma sameGeom_add (g : UniformGrid) (i : ℤ) (bb : Box3) : SameGeom g (g.Add i bb) :=
  ⟨rfl, rfl, rfl, rfl, rfl, rfl, length_foldl_addOne g i _ _⟩

lemma sameGeom_clear (g : UniformGrid) : SameGeom g g.Clear := by
  refine ⟨rfl, rfl, rfl, rfl, rfl, rfl, ?_⟩
  show (g.gridCells.enum.map _).length = _
  rw [List.length_map, List.enum_length]

lemma sameGeom_buildStep (g : UniformGrid) (p : ℕ × Asteroid) : SameGeom g (buildStep g p) := by
  unfold buildStep
  split
  · exact sameGeom_add g _ _
  · exact sameGeom_refl g

lemma sameGeom_foldl_buildStep :
    ∀ (pairs : List (ℕ × Asteroid)) (g : UniformGrid), SameGeom g (pairs.foldl buildStep g) := by
  intro pairs
  induction pairs with
  | nil => intro g; exact sameGeom_refl g
  | cons p rest ih =>
    intro g
    rw [List.foldl_cons]
    exact sameGeom_trans (sameGeom_buildStep g p) (ih (buildStep g p))

lemma sameGeom_buildInstanced (g : UniformGrid) (objs : List Asteroid) :
    SameGeom g (g.BuildInstanced objs) :=
  sameGeom_trans (sameGeom_clear g) (sameGeom_foldl_buildStep objs.enum g.Clear)

lemma GetCellIndices_congr {g g' : UniformGrid} (h : SameGeom g g') (p : Vec3) :
    g'.GetCellIndices p = g.GetCellIndices p := by
  obtain ⟨h1, h2, h3, h4, h5, h6, h7⟩ := h
  simp [UniformGrid.GetCellIndices, h1, h2, h3, h4, h5]

lemma IsValidIndex_congr {g g' : UniformGrid} (h : SameGeom g g') (ix iy iz : ℤ) :
    g'.IsValidIndex ix iy iz = g.IsValidIndex ix iy iz := by
  obtain ⟨h1, h2, h3, h4, h5, h6, h7⟩ := h
  simp [UniformGrid.IsValidIndex, h3, h4, h5]

lemma Get1DIndex_congr {g g' : UniformGrid} (h : SameGeom g g') (ix iy iz : ℤ) :
    g'.Get1DIndex ix iy iz = g.Get1DIndex ix iy iz := by
  obtain ⟨h1, h2, h3, h4, h5, h6, h7⟩ := h
  simp [UniformGrid.Get1DIndex, h3, h4]

lemma WF_congr {g g' : UniformGrid} (h : SameGeom g g') (hwf : WF g) : WF g' := by
  obtain ⟨h1, h2, h3, h4, h5, h6, h7⟩ := h
  obtain ⟨w1, w2, w3, w4, w5, w6, w7, w8⟩ := hwf
  exact ⟨h3 ▸ w1, h4 ▸ w2, h5 ▸ w3, h2 ▸ w4, h2 ▸ w5, h2 ▸ w6,
    by rw [h6, h3, h4, h5]; exact w7, by rw [h7, h6]; exact w8⟩

/-! Bounds for the linearized cell index of valid coordinates. -/

lemma get1DIndex_bounds (g : UniformGrid) (ix iy iz : ℤ)
    (hx : 0 ≤ ix) (hx2 : ix < g.gridDimX) (hy : 0 ≤ iy) (hy2 : iy < g.gridDimY)
    (hz : 0 ≤ iz) (hz2 : iz < g.gridDimZ) :
    0 ≤ g.Get1DIndex ix iy iz ∧
      g.Get1DIndex ix iy iz < g.gridDimX * g.gridDimY * g.gridDimZ := by
  unfold UniformGrid.Get1DIndex
  have hnx : (0:ℤ) ≤ g.gridDimX := by omega
  have hny : (0:ℤ) ≤ g.gridDimY := by omega
  constructor
  · have e1 : 0 ≤ iy * g.gridDimX := mul_nonneg hy hnx
    have e2 : 0 ≤ iz * g.gridDimX * g.gridDimY := mul_nonneg (mul_nonneg hz hnx) hny
    linarith
  · have e1 : iy * g.gridDimX ≤ (g.gridDimY - 1) * g.gridDimX :=
      mul_le_mul_of_nonneg_right (by omega) hnx
    have e2 : iz * g.gridDimX * g.gridDimY ≤ (g.gridDimZ - 1) * g.gridDimX * g.gridDimY :=
      mul_le_mul_of_nonneg_right (mul_le_mul_of_nonneg_right (by omega) hnx) hny
    have e3 : g.gridDimX - 1 + (g.gridDimY - 1) * g.gridDimX +
        (g.gridDimZ - 1) * g.gridDimX * g.gridDimY =
        g.gridDimX * g.gridDimY * g.gridDimZ - 1 := by ring
    have e4 : g.gridDimX * g.gridDimY * g.gridDimZ - 1 <
        g.gridDimX * g.gridDimY * g.gridDimZ := sub_one_lt _
    linarith

lemma isValidIndex_iff (g : UniformGrid) (ix iy iz : ℤ) :
    g.IsValidIndex ix iy iz = true ↔
      0 ≤ ix ∧ ix < g.gridDimX ∧ 0 ≤ iy ∧ iy < g.gridDimY ∧ 0 ≤ iz ∧ iz < g.gridDimZ := by
  simp [UniformGrid.IsValidIndex]

lemma valid_linear_bounds (g : UniformGrid) (ix iy iz : ℤ) (hwf : WF g)
    (hv : g.IsValidIndex ix iy iz = true) :
    0 ≤ g.Get1DIndex ix iy iz ∧ g.Get1DIndex ix iy iz < (g.gridCells.length : ℤ) := by
  obtain ⟨hx, hx2, hy, hy2, hz, hz2⟩ := (isValidIndex_iff g ix iy iz).mp hv
  obtain ⟨w1, w2, w3, w4, w5, w6, w7, w8⟩ := hwf
  have := get1DIndex_bounds g ix iy iz hx hx2 hy hy2 hz hz2
  rw [w8, w7]
  exact this

/-! Membership in cell contents as `Add` and `BuildInstanced` run: cells
only grow, and the inserted index lands in every valid cell of the
coordinate box. -/

lemma mem_addOne_of_mem (g : UniformGrid) (i : ℤ) (cells : List (List ℤ))
    (t : ℤ × ℤ × ℤ) (j : ℕ) (v : ℤ) (h : v ∈ cells.getD j []) :
    v ∈ (addOne g i cells t).getD j [] := by
  unfold addOne
  split
  · dsimp only
    split
    · rename_i hb
      by_cases hj : (g.Get1DIndex t.1 t.2.1 t.2.2).toNat = j
      · subst hj
        rw [getD_set_self _ _ _ _ (by omega)]
        exact List.mem_append.mpr (Or.inl h)
      · rw [getD_set_ne _ _ _ _ _ hj]
        exact h
    · exact h
  · exact h

lemma mem_foldl_addOne_of_mem (g : UniformGrid) (i : ℤ) (j : ℕ) (v : ℤ) :
    ∀ (l : List (ℤ × ℤ × ℤ)) (cells : List (List ℤ)),
      v ∈ cells.getD j [] → v ∈ (l.foldl (addOne g i) cells).getD j [] := by
  intro l
  induction l with
  | nil => intro cells h; exact h
  | cons t rest ih =>
    intro cells h
    rw [List.foldl_cons]
    exact ih _ (mem_addOne_of_mem g i cells t j v h)

lemma addOne_target (g : UniformGrid) (i : ℤ) (cells : List (List ℤ)) (t : ℤ × ℤ × ℤ)
    (hv : g.IsValidIndex t.1 t.2.1 t.2.2 = true)
    (hb : 0 ≤ g.Get1DIndex t.1 t.2.1 t.2.2 ∧
      g.Get1DIndex t.1 t.2.1 t.2.2 < (cells.length : ℤ)) :
    i ∈ (addOne g i cells t).getD (g.Get1DIndex t.1 t.2.1 t.2.2).toNat [] := by
  unfold addOne
  simp only [hv, if_true]
  rw [if_pos hb, getD_set_self _ _ _ _ (by omega)]
  exact List.mem_append.mpr (Or.inr (List.mem_singleton.mpr rfl))

lemma foldl_addOne_target (g : UniformGrid) (i : ℤ) (t : ℤ × ℤ × ℤ)
    (hv : g.IsValidIndex t.1 t.2.1 t.2.2 = true) :
    ∀ (l : List (ℤ × ℤ × ℤ)) (cells : List (List ℤ)),
      t ∈ l →
      (0 ≤ g.Get1DIndex t.1 t.2.1 t.2.2 ∧
        g.Get1DIndex t.1 t.2.1 t.2.2 < (cells.length : ℤ)) →
      i ∈ (l.foldl (addOne g i) cells).getD (g.Get1DIndex t.1 t.2.1 t.2.2).toNat [] := by
  intro l
  induction l with
  | nil => intro cells ht; exact absurd ht (List.not_mem_nil t)
  | cons a rest ih =>
    intro cells ht hb
    rw [List.foldl_cons]
    rcases List.mem_cons.mp ht with h1 | h1
    · subst h1
      exact mem_foldl_addOne_of_mem g i _ _ rest _ (addOne_target g i cells t hv hb)
    · exact ih _ h1 (by rw [length_addOne]; exact hb)

lemma mem_addTriples (minI maxI : Vector3Int) (t : ℤ × ℤ × ℤ) :
    t ∈ UniformGrid.addTriples minI maxI ↔
      (minI.x ≤ t.1 ∧ t.1 ≤ maxI.x) ∧ (minI.y ≤ t.2.1 ∧ t.2.1 ≤ maxI.y) ∧
      (minI.z ≤ t.2.2 ∧ t.2.2 ≤ maxI.z) := by
  constructor
  · intro h
    obtain ⟨iz, hz, h2⟩ := List.mem_flatMap.mp h
    obtain ⟨iy, hy, h3⟩ := List.mem_flatMap.mp h2
    obtain ⟨ix, hx, hEq⟩ := List.mem_map.mp h3
    subst hEq
    exact ⟨(mem_intRange _ _ _).mp hx, (mem_intRange _ _ _).mp hy, (mem_intRange _ _ _).mp hz⟩
  · rintro ⟨hx, hy, hz⟩
    exact List.mem_flatMap.mpr ⟨t.2.2, (mem_intRange _ _ _).mpr hz,
      List.mem_flatMap.mpr ⟨t.2.1, (mem_intRange _ _ _).mpr hy,
        List.mem_map.mpr ⟨t.1, (mem_intRange _ _ _).mpr hx, rfl⟩⟩⟩

lemma add_target (g : UniformGrid) (i : ℤ) (bb : Box3) (t : ℤ × ℤ × ℤ) (hwf : WF g)
    (hv : g.IsValidIndex t.1 t.2.1 t.2.2 = true)
    (h1 : (g.GetCellIndices bb.min).x ≤ t.1) (h2 : t.1 ≤ (g.GetCellIndices bb.max).x)
    (h3 : (g.GetCellIndices bb.min).y ≤ t.2.1) (h4 : t.2.1 ≤ (g.GetCellIndices bb.max).y)
    (h5 : (g.GetCellIndices bb.min).z ≤ t.2.2) (h6 : t.2.2 ≤ (g.GetCellIndices bb.max).z) :
    i ∈ (g.Add i bb).gridCells.getD (g.Get1DIndex t.1 t.2.1 t.2.2).toNat [] := by
  show i ∈ ((UniformGrid.addTriples _ _).foldl (addOne g i) g.gridCells).getD _ []
  exact foldl_addOne_target g i t hv _ g.gridCells
    ((mem_addTriples _ _ t).mpr ⟨⟨h1, h2⟩, ⟨h3, h4⟩, ⟨h5, h6⟩⟩)
    (valid_linear_bounds g t.1 t.2.1 t.2.2 hwf hv)

lemma mem_add_of_mem (g : UniformGrid) (i : ℤ) (bb : Box3) (j : ℕ) (v : ℤ)
    (h : v ∈ g.gridCells.getD j []) : v ∈ (g.Add i bb).gridCells.getD j [] :=
  mem_foldl_addOne_of_mem g i j v _ g.gridCells h

lemma mem_buildStep_of_mem (g : UniformGrid) (p : ℕ × Asteroid) (j : ℕ) (v : ℤ)
    (h : v ∈ g.gridCells.getD j []) : v ∈ (buildStep g p).gridCells.getD j [] := by
  unfold buildStep
  split
  · exact mem_add_of_mem g _ _ j v h
  · exact h

lemma mem_foldl_buildStep_of_mem (j : ℕ) (v : ℤ) :
    ∀ (pairs : List (ℕ × Asteroid)) (g : UniformGrid),
      v ∈ g.gridCells.getD j [] → v ∈ (pairs.foldl buildStep g).gridCells.getD j [] := by
  intro pairs
  induction pairs with
  | nil => intro g h; exact h
  | cons p rest ih =>
    intro g h
    rw [List.foldl_cons]
    exact ih _ (mem_buildStep_of_mem g p j v h)

/-! After `Clear`, every cell of a well-formed grid is empty. -/

lemma clear_getD (g : UniformGrid) (hwf : WF g) (j : ℕ) :
    g.Clear.gridCells.getD j [] = [] := by
  obtain ⟨w1, w2, w3, w4, w5, w6, w7, w8⟩ := hwf
  show (g.gridCells.enum.map _).getD j [] = []
  rw [List.getD_eq_getElem?_getD, List.getElem?_map, List.getElem?_enum]
  cases hj : g.gridCells[j]? with
  | none => rfl
  | some v =>
    have hl : j < g.gridCells.length := by
      by_contra hcon
      rw [List.getElem?_eq_none (by omega)] at hj
      exact Option.noConfusion hj
    simp only [Option.map_some']
    show (if ((j : ℕ) : ℤ) < g.totalCells then [] else v) = []
    rw [if_pos (by omega)]

/-! Conversely, any index found in a cell after the build was inserted by
some active instance of the build. -/

lemma mem_addOne_cases (g : UniformGrid) (i : ℤ) (cells : List (List ℤ))
    (t : ℤ × ℤ × ℤ) (j : ℕ) (v : ℤ) (h : v ∈ (addOne g i cells t).getD j []) :
    v ∈ cells.getD j [] ∨ v = i := by
  unfold addOne at h
  split at h
  · dsimp only at h
    split at h
    · rename_i hb
      by_cases hj : (g.Get1DIndex t.1 t.2.1 t.2.2).toNat = j
      · subst hj
        rw [getD_set_self _ _ _ _ (by omega)] at h
        rcases List.mem_append.mp h with h1 | h1
        · exact Or.inl h1
        · exact Or.inr (List.mem_singleton.mp h1)
      · rw [getD_set_ne _ _ _ _ _ hj] at h
        exact Or.inl h
    · exact Or.inl h
  · exact Or.inl h

lemma mem_foldl_addOne_cases (g : UniformGrid) (i : ℤ) (j : ℕ) (v : ℤ) :
    ∀ (l : List (ℤ × ℤ × ℤ)) (cells : List (List ℤ)),
      v ∈ (l.foldl (addOne g i) cells).getD j [] → v ∈ cells.getD j [] ∨ v = i := by
  intro l
  induction l with
  | nil => intro cells h; exact Or.inl h
  | cons t rest ih =>
    intro cells h
    rw [List.foldl_cons] at h
    rcases ih _ h with h1 | h1
    · exact mem_addOne_cases g i cells t j v h1
    · exact Or.inr h1

lemma mem_add_cases (g : UniformGrid) (i : ℤ) (bb : Box3) (j : ℕ) (v : ℤ)
    (h : v ∈ (g.Add i bb).gridCells.getD j []) : v ∈ g.gridCells.getD j [] ∨ v = i :=
  mem_foldl_addOne_cases g i j v _ g.gridCells h

lemma mem_buildStep_cases (g : UniformGrid) (p : ℕ × Asteroid) (j : ℕ) (v : ℤ)
    (h : v ∈ (buildStep g p).gridCells.getD j []) :
    v ∈ g.gridCells.getD j [] ∨ (v = (p.1 : ℤ) ∧ p.2.isActive = true) := by
  unfold buildStep at h
  split at h
  · rename_i hact
    rcases mem_add_cases g _ _ j v h with h1 | h1
    · exact Or.inl h1
    · exact Or.inr ⟨h1, hact⟩
  · exact Or.inl h

lemma mem_foldl_buildStep_cases (j : ℕ) (v : ℤ) :
    ∀ (pairs : List (ℕ × Asteroid)) (g : UniformGrid),
      v ∈ (pairs.foldl buildStep g).gridCells.getD j [] →
      v ∈ g.gridCells.getD j [] ∨ ∃ p ∈ pairs, v = (p.1 : ℤ) ∧ p.2.isActive = true := by
  intro pairs
  induction pairs with
  | nil => intro g h; exact Or.inl h
  | cons p rest ih =>
    intro g h
    rw [List.foldl_cons] at h
    rcases ih _ h with h1 | h1
    · rcases mem_buildStep_cases g p j v h1 with h2 | h2
      · exact Or.inl h2
      · exact Or.inr ⟨p, List.mem_cons_self p rest, h2⟩
    · obtain ⟨q, hq, h2⟩ := h1
      exact Or.inr ⟨q, List.mem_cons_of_mem p hq, h2⟩

lemma mem_buildInstanced_cases (g : UniformGrid) (objs : List Asteroid) (hwf : WF g)
    (j : ℕ) (v : ℤ) (h : v ∈ (g.BuildInstanced objs).gridCells.getD j []) :
    ∃ p ∈ objs.enum, v = (p.1 : ℤ) ∧ p.2.isActive = true := by
  rcases mem_foldl_buildStep_cases j v objs.enum g.Clear h with h1 | h1
  · rw [clear_getD g hwf j] at h1
    exact absurd h1 (List.not_mem_nil v)
  · exact h1

/-! Membership lemmas for `Query` and `QueryRay` results. -/

lemma cellAt_eq (g : UniformGrid) (ix iy iz : ℤ) (hwf : WF g)
    (hv : g.IsValidIndex ix iy iz = true) :
    g.cellAt ix iy iz = g.gridCells.getD (g.Get1DIndex ix iy iz).toNat [] := by
  unfold UniformGrid.cellAt
  rw [if_pos (valid_linear_bounds g ix iy iz hwf hv)]

lemma mem_cellAt_cases (g : UniformGrid) (ix iy iz : ℤ) (v : ℤ)
    (h : v ∈ g.cellAt ix iy iz) : ∃ j, v ∈ g.gridCells.getD j [] := by
  unfold UniformGrid.cellAt at h
  dsimp only at h
  split at h
  · exact ⟨_, h⟩
  · exact absurd h (List.not_mem_nil v)

lemma mem_queryCollect_center (g : UniformGrid) (c : Vector3Int) (v : ℤ)
    (hv : g.IsValidIndex c.x c.y c.z = true) (h : v ∈ g.cellAt c.x c.y c.z) :
    v ∈ g.queryCollect c := by
  refine List.mem_flatMap.mpr ⟨0, by decide, List.mem_flatMap.mpr ⟨0, by decide,
    List.mem_flatMap.mpr ⟨0, by decide, ?_⟩⟩⟩
  simpa [hv] using h

lemma center_valid (g : UniformGrid) (p : Vec3) (hwf : WF g) :
    g.IsValidIndex (g.GetCellIndices p).x (g.GetCellIndices p).y (g.GetCellIndices p).z
      = true := by
  obtain ⟨w1, w2, w3, w4, w5, w6, w7, w8⟩ := hwf
  refine (isValidIndex_iff g _ _ _).mpr ?_
  show 0 ≤ cellCoord _ _ _ _ ∧ cellCoord _ _ _ _ < _ ∧ 0 ≤ cellCoord _ _ _ _ ∧
    cellCoord _ _ _ _ < _ ∧ 0 ≤ cellCoord _ _ _ _ ∧ cellCoord _ _ _ _ < _
  have b1 := cellCoord_le g.gridMinBounds.x g.gridCellSize.x g.gridDimX p.x w1
  have b2 := cellCoord_le g.gridMinBounds.y g.gridCellSize.y g.gridDimY p.y w2
  have b3 := cellCoord_le g.gridMinBounds.z g.gridCellSize.z g.gridDimZ p.z w3
  have c1 := cellCoord_nonneg g.gridMinBounds.x g.gridCellSize.x g.gridDimX p.x
  have c2 := cellCoord_nonneg g.gridMinBounds.y g.gridCellSize.y g.gridDimY p.y
  have c3 := cellCoord_nonneg g.gridMinBounds.z g.gridCellSize.z g.gridDimZ p.z
  omega

lemma mem_query_center (g : UniformGrid) (p : Vec3) (v : ℤ) (hwf : WF g)
    (h : v ∈ g.gridCells.getD
      (g.Get1DIndex (g.GetCellIndices p).x (g.GetCellIndices p).y
        (g.GetCellIndices p).z).toNat []) :
    v ∈ g.Query p := by
  have hv := center_valid g p hwf
  refine (mem_sortedUnique v _).mpr ?_
  exact mem_queryCollect_center g _ v hv ((cellAt_eq g _ _ _ hwf hv).symm ▸ h)

lemma mem_queryCollect_cases (g : UniformGrid) (c : Vector3Int) (v : ℤ)
    (h : v ∈ g.queryCollect c) : ∃ j, v ∈ g.gridCells.getD j [] := by
  unfold UniformGrid.queryCollect at h
  obtain ⟨dz, _, h⟩ := List.mem_flatMap.mp h
  obtain ⟨dy, _, h⟩ := List.mem_flatMap.mp h
  obtain ⟨dx, _, h⟩ := List.mem_flatMap.mp h
  dsimp only at h
  split at h
  · exact mem_cellAt_cases g _ _ _ v h
  · exact absurd h (List.not_mem_nil v)

lemma mem_query_cases (g : UniformGrid) (p : Vec3) (v : ℤ) (h : v ∈ g.Query p) :
    ∃ j, v ∈ g.gridCells.getD j [] :=
  mem_queryCollect_cases g _ v ((mem_sortedUnique v _).mp h)

lemma mem_rayLoop_cases (g : UniformGrid) (pr : RayParams) (maxD : ℚ) :
    ∀ (fuel : ℕ) (s : RayState) (acc : List ℤ) (v : ℤ),
      v ∈ rayLoop g pr maxD fuel s acc → v ∈ acc ∨ ∃ j, v ∈ g.gridCells.getD j [] := by
  intro fuel
  induction fuel with
  | zero => intro s acc v h; exact Or.inl h
  | succ n ih =>
    intro s acc v h
    unfold rayLoop at h
    split at h
    · dsimp only at h
      split at h
      · exact Or.inl h
      · split at h
        · exact Or.inl h
        · rcases ih _ _ v h with h1 | h1
          · rcases List.mem_append.mp h1 with h2 | h2
            · exact Or.inl h2
            · exact Or.inr (mem_cellAt_cases g _ _ _ v h2)
          · exact Or.inr h1
    · exact Or.inl h

lemma mem_queryRayFuel_cases (g : UniformGrid) (ray : Ray3) (maxD : ℚ) (fuel : ℕ) (v : ℤ)
    (h : v ∈ g.QueryRayFuel ray maxD fuel) : ∃ j, v ∈ g.gridCells.getD j [] := by
  unfold UniformGrid.QueryRayFuel at h
  split at h
  · exact mem_query_cases g _ v h
  · rcases mem_rayLoop_cases g _ _ fuel _ _ v ((mem_sortedUnique v _).mp h) with h1 | h1
    · unfold UniformGrid.rayAccInit at h1
      dsimp only at h1
      split at h1
      · exact mem_cellAt_cases g _ _ _ v h1
      · exact absurd h1 (List.not_mem_nil v)
    · exact h1

/-! The build inserts each active instance index into every valid cell
between the clamped corner cells of its approximate bounds. -/

lemma effRadius_pos (a : Asteroid) : 0 < effRadius a := by
  unfold effRadius
  split
  · norm_num
  · rename_i h
    exact lt_of_not_le h

lemma buildFold_target :
    ∀ (pairs : List (ℕ × Asteroid)) (g : UniformGrid) (i : ℕ) (a : Asteroid)
      (t : ℤ × ℤ × ℤ),
      (i, a) ∈ pairs → a.isActive = true → WF g →
      (g.GetCellIndices (codeBox a).min).x ≤ t.1 → t.1 ≤ (g.GetCellIndices (codeBox a).max).x →
      (g.GetCellIndices (codeBox a).min).y ≤ t.2.1 → t.2.1 ≤ (g.GetCellIndices (codeBox a).max).y →
      (g.GetCellIndices (codeBox a).min).z ≤ t.2.2 → t.2.2 ≤ (g.GetCellIndices (codeBox a).max).z →
      g.IsValidIndex t.1 t.2.1 t.2.2 = true →
      (i : ℤ) ∈ (pairs.foldl buildStep g).gridCells.getD
        (g.Get1DIndex t.1 t.2.1 t.2.2).toNat [] := by
  intro pairs
  induction pairs with
  | nil =>
    intro g i a t hmem
    exact absurd hmem (List.not_mem_nil _)
  | cons p rest ih =>
    intro g i a t hmem hact hwf h1 h2 h3 h4 h5 h6 hv
    rw [List.foldl_cons]
    rcases List.mem_cons.mp hmem with hEq | hrest
    · have hstep : buildStep g p = g.Add (i : ℤ) (codeBox a) := by
        rw [← hEq]
        unfold buildStep
        rw [if_pos]
        exact hact
      rw [hstep]
      exact mem_foldl_buildStep_of_mem _ _ rest _
        (add_target g (i : ℤ) (codeBox a) t hwf hv h1 h2 h3 h4 h5 h6)
    · have hsg := sameGeom_buildStep g p
      rw [← Get1DIndex_congr hsg t.1 t.2.1 t.2.2]
      exact ih (buildStep g p) i a t hrest hact (WF_congr hsg hwf)
        (by rw [GetCellIndices_congr hsg]; exact h1)
        (by rw [GetCellIndices_congr hsg]; exact h2)
        (by rw [GetCellIndices_congr hsg]; exact h3)
        (by rw [GetCellIndices_congr hsg]; exact h4)
        (by rw [GetCellIndices_congr hsg]; exact h5)
        (by rw [GetCellIndices_congr hsg]; exact h6)
        (by rw [IsValidIndex_congr hsg]; exact hv)

lemma buildInstanced_target (g : UniformGrid) (objs : List Asteroid) (i : ℕ) (a : Asteroid)
    (t : ℤ × ℤ × ℤ) (hwf : WF g) (hget : objs[i]? = some a) (hact : a.isActive = true)
    (h1 : (g.GetCellIndices (codeBox a).min).x ≤ t.1)
    (h2 : t.1 ≤ (g.GetCellIndices (codeBox a).max).x)
    (h3 : (g.GetCellIndices (codeBox a).min).y ≤ t.2.1)
    (h4 : t.2.1 ≤ (g.GetCellIndices (codeBox a).max).y)
    (h5 : (g.GetCellIndices (codeBox a).min).z ≤ t.2.2)
    (h6 : t.2.2 ≤ (g.GetCellIndices (codeBox a).max).z)
    (hv : g.IsValidIndex t.1 t.2.1 t.2.2 = true) :
    (i : ℤ) ∈ (g.BuildInstanced objs).gridCells.getD
      (g.Get1DIndex t.1 t.2.1 t.2.2).toNat [] := by
  have hsg := sameGeom_clear g
  show (i : ℤ) ∈ (objs.enum.foldl buildStep g.Clear).gridCells.getD _ []
  rw [← Get1DIndex_congr hsg t.1 t.2.1 t.2.2]
  exact buildFold_target objs.enum g.Clear i a t
    (List.mem_enum_iff_getElem?.mpr hget) hact (WF_congr hsg hwf)
    (by rw [GetCellIndices_congr hsg]; exact h1)
    (by rw [GetCellIndices_congr hsg]; exact h2)
    (by rw [GetCellIndices_congr hsg]; exact h3)
    (by rw [GetCellIndices_congr hsg]; exact h4)
    (by rw [GetCellIndices_congr hsg]; exact h5)
    (by rw [GetCellIndices_congr hsg]; exact h6)
    (by rw [IsValidIndex_congr hsg]; exact hv)

/-! Termination of the ray traversal: each loop iteration moves exactly
one cell coordinate one step outward along its fixed direction, so a
measure built from the remaining cells along each axis strictly
decreases, and any fuel of at least `fuelBound` gives the same result. -/

lemma remSum_rayStep (g : UniformGrid) (p : RayParams) (s : RayState) (hp : stepsOK p) :
    remSum g p (rayStep p s) = remSum g p s - 1 := by
  obtain ⟨hx, hy, hz⟩ := hp
  unfold rayStep
  split_ifs with c1 c2 c3 <;>
    · unfold remSum axisRem
      dsimp only
      rcases hx with h1 | h1 <;> rcases hy with h2 | h2 <;> rcases hz with h3 | h3 <;>
        split_ifs <;> omega

lemma remSum_bounds (g : UniformGrid) (p : RayParams) (s : RayState) (hp : stepsOK p)
    (hv : g.IsValidIndex s.ix s.iy s.iz = true) :
    3 ≤ remSum g p s ∧ remSum g p s ≤ g.gridDimX + g.gridDimY + g.gridDimZ := by
  obtain ⟨hx, hx2, hy, hy2, hz, hz2⟩ := (isValidIndex_iff g _ _ _).mp hv
  obtain ⟨s1, s2, s3⟩ := hp
  unfold remSum axisRem
  rcases s1 with h1 | h1 <;> rcases s2 with h2 | h2 <;> rcases s3 with h3 | h3 <;>
    split_ifs <;> omega

lemma rayLoop_fuel_indep (g : UniformGrid) (p : RayParams) (maxD : ℚ) (hp : stepsOK p) :
    ∀ (n : ℕ) (s : RayState) (acc : List ℤ) (f1 f2 : ℕ),
      g.IsValidIndex s.ix s.iy s.iz = true →
      (remSum g p s).toNat ≤ n → n ≤ f1 → n ≤ f2 →
      rayLoop g p maxD f1 s acc = rayLoop g p maxD f2 s acc := by
  intro n
  induction n with
  | zero =>
    intro s acc f1 f2 hv hm _ _
    have := (remSum_bounds g p s hp hv).1
    omega
  | succ n ih =>
    intro s acc f1 f2 hv hm hf1 hf2
    obtain ⟨a, rfl⟩ : ∃ a, f1 = a + 1 := ⟨f1 - 1, by omega⟩
    obtain ⟨b, rfl⟩ : ∃ b, f2 = b + 1 := ⟨f2 - 1, by omega⟩
    unfold rayLoop
    by_cases hc1 : oLtQ s.currentT maxD = true
    · rw [if_pos hc1, if_pos hc1]
      dsimp only
      by_cases hb1 : oLtQ (rayStep p s).currentT maxD = false
      · rw [if_pos hb1, if_pos hb1]
      · rw [if_neg hb1, if_neg hb1]
        by_cases hb2 : g.IsValidIndex (rayStep p s).ix (rayStep p s).iy (rayStep p s).iz = false
        · rw [if_pos hb2, if_pos hb2]
        · rw [if_neg hb2, if_neg hb2]
          have hv1 : g.IsValidIndex (rayStep p s).ix (rayStep p s).iy (rayStep p s).iz
              = true := by
            cases h : g.IsValidIndex (rayStep p s).ix (rayStep p s).iy (rayStep p s).iz
            · exact absurd h hb2
            · rfl
          have hdec := remSum_rayStep g p s hp
          have hlow := (remSum_bounds g p (rayStep p s) hp hv1).1
          exact ih (rayStep p s) _ a b hv1 (by omega) (by omega) (by omega)
    · rw [if_neg hc1, if_neg hc1]

lemma stepsOK_rayParamsOf (g : UniformGrid) (ray : Ray3) : stepsOK (g.rayParamsOf ray) := by
  unfold UniformGrid.rayParamsOf UniformGrid.stepOf
  refine ⟨?_, ?_, ?_⟩ <;> dsimp only <;> split <;> simp

lemma rayStateInit_coords (g : UniformGrid) (ray : Ray3) :
    (g.rayStateInit ray).ix = (g.GetCellIndices ray.position).x ∧
    (g.rayStateInit ray).iy = (g.GetCellIndices ray.position).y ∧
    (g.rayStateInit ray).iz = (g.GetCellIndices ray.position).z :=
  ⟨rfl, rfl, rfl⟩

lemma queryRayFuel_high (g : UniformGrid) (ray : Ray3) (maxD : ℚ) (hwf : WF g)
    (f1 f2 : ℕ) (h1 : fuelBound g ≤ f1) (h2 : fuelBound g ≤ f2) :
    g.QueryRayFuel ray maxD f1 = g.QueryRayFuel ray maxD f2 := by
  unfold UniformGrid.QueryRayFuel
  split
  · rfl
  · have hp := stepsOK_rayParamsOf g ray
    have hv : g.IsValidIndex (g.rayStateInit ray).ix (g.rayStateInit ray).iy
        (g.rayStateInit ray).iz = true := by
      obtain ⟨e1, e2, e3⟩ := rayStateInit_coords g ray
      rw [e1, e2, e3]
      exact center_valid g ray.position hwf
    have hb := remSum_bounds g (g.rayParamsOf ray) (g.rayStateInit ray) hp hv
    obtain ⟨w1, w2, w3, _⟩ := hwf
    have hfb : (remSum g (g.rayParamsOf ray) (g.rayStateInit ray)).toNat ≤ fuelBound g := by
      unfold fuelBound
      omega
    rw [rayLoop_fuel_indep g (g.rayParamsOf ray) maxD hp
      (remSum g (g.rayParamsOf ray) (g.rayStateInit ray)).toNat (g.rayStateInit ray)
      (g.rayAccInit ray) f1 f2 hv (le_refl _) (by omega) (by omega)]

/-! Monotonicity of the clamped cell lookup in the position. -/

lemma getCellIndices_mono (g : UniformGrid) (p q : Vec3) (hwf : WF g)
    (hx : p.x ≤ q.x) (hy : p.y ≤ q.y) (hz : p.z ≤ q.z) :
    (g.GetCellIndices p).x ≤ (g.GetCellIndices q).x ∧
    (g.GetCellIndices p).y ≤ (g.GetCellIndices q).y ∧
    (g.GetCellIndices p).z ≤ (g.GetCellIndices q).z := by
  obtain ⟨w1, w2, w3, w4, w5, w6, w7, w8⟩ := hwf
  exact ⟨cellCoord_mono _ _ _ _ _ w4 hx, cellCoord_mono _ _ _ _ _ w5 hy,
    cellCoord_mono _ _ _ _ _ w6 hz⟩

lemma effRadius_le (a : Asteroid) : effRadius a ≤ max a.collisionRadius (1/2) := by
  unfold effRadius
  split
  · exact le_max_right _ _
  · exact le_max_left _ _

/-- C5: for every ray whose direction has squared length below the
`0.0001` threshold and every maximum distance, `QueryRay` returns exactly
the same index list as `Query` at the ray origin. -/
theorem C5_queryRay_degenerate_eq_query (g : UniformGrid) (ray : Ray3) (maxD : ℚ)
    (h : vector3LengthSqr ray.direction < 1/10000) :
    g.QueryRay ray maxD = g.Query ray.position := by
  unfold UniformGrid.QueryRay UniformGrid.QueryRayFuel
  rw [if_pos h]

/-- Witness for C5 at a concrete degenerate ray. -/
theorem C5_witness :
    gridC2.QueryRay ⟨⟨1, 2, 3⟩, ⟨1/200, 0, 0⟩⟩ 100 = gridC2.Query ⟨1, 2, 3⟩ :=
  C5_queryRay_degenerate_eq_query gridC2 ⟨⟨1, 2, 3⟩, ⟨1/200, 0, 0⟩⟩ 100
    (by norm_num [vector3LengthSqr])

/-- C8: on a well-formed grid (as the constructor builds and every
operation preserves), whenever `IsValidIndex` accepts a coordinate
triple, its linearization lies in `[0, gridCells.size())`, so the
defensive out-of-range branches of `Add`, `Query` and `QueryRay` are
unreachable and every cell access is in bounds. -/
theorem C8_valid_index_linear_in_bounds (g : UniformGrid) (ix iy iz : ℤ) (hwf : WF g)
    (hv : g.IsValidIndex ix iy iz = true) :
    0 ≤ g.Get1DIndex ix iy iz ∧ g.Get1DIndex ix iy iz < (g.gridCells.length : ℤ) :=
  valid_linear_bounds g ix iy iz hwf hv

/-- C4: for every position, including positions outside the grid bounds,
the clamped cell coordinates are within the grid dimensions and the
linearized index lies in `[0, totalCells)`. -/
theorem C4_cell_indices_in_range (g : UniformGrid) (p : Vec3) (hwf : WF g) :
    (0 ≤ (g.GetCellIndices p).x ∧ (g.GetCellIndices p).x < g.gridDimX) ∧
    (0 ≤ (g.GetCellIndices p).y ∧ (g.GetCellIndices p).y < g.gridDimY) ∧
    (0 ≤ (g.GetCellIndices p).z ∧ (g.GetCellIndices p).z < g.gridDimZ) ∧
    0 ≤ g.Get1DIndex (g.GetCellIndices p).x (g.GetCellIndices p).y (g.GetCellIndices p).z ∧
    g.Get1DIndex (g.GetCellIndices p).x (g.GetCellIndices p).y (g.GetCellIndices p).z
      < g.totalCells := by
  obtain ⟨hx, hx2, hy, hy2, hz, hz2⟩ :=
    (isValidIndex_iff g _ _ _).mp (center_valid g p hwf)
  have hb := get1DIndex_bounds g _ _ _ hx hx2 hy hy2 hz hz2
  obtain ⟨w1, w2, w3, w4, w5, w6, w7, w8⟩ := hwf
  rw [w7]
  exact ⟨⟨hx, hx2⟩, ⟨hy, hy2⟩, ⟨hz, hz2⟩, hb.1, hb.2⟩

/-- C9: the `QueryRay` traversal terminates within a fuel bound computed
from the grid dimensions alone (independent of the stored object
indices): any extra fuel beyond `fuelBound` leaves the result unchanged. -/
theorem C9_queryRay_fuel_indep (g : UniformGrid) (ray : Ray3) (maxD : ℚ) (extra : ℕ)
    (hwf : WF g) :
    g.QueryRayFuel ray maxD (fuelBound g + extra) = g.QueryRay ray maxD :=
  queryRayFuel_high g ray maxD hwf (fuelBound g + extra) (fuelBound g)
    (by omega) (le_refl _)

/-- C3: an object inactive at build time is stored in no cell and appears
in no `Query` or `QueryRay` result of the built grid. -/
theorem C3_inactive_absent (g : UniformGrid) (objs : List Asteroid) (i : ℕ) (a : Asteroid)
    (hwf : WF g) (hget : objs[i]? = some a) (hact : a.isActive = false) :
    (∀ j : ℕ, (i : ℤ) ∉ (g.BuildInstanced objs).gridCells.getD j []) ∧
    (∀ p : Vec3, (i : ℤ) ∉ (g.BuildInstanced objs).Query p) ∧
    (∀ (ray : Ray3) (maxD : ℚ), (i : ℤ) ∉ (g.BuildInstanced objs).QueryRay ray maxD) := by
  have hcell : ∀ j : ℕ, (i : ℤ) ∉ (g.BuildInstanced objs).gridCells.getD j [] := by
    intro j hmem
    obtain ⟨q, hq, hEq, hqact⟩ := mem_buildInstanced_cases g objs hwf j (i : ℤ) hmem
    have hq1 : q.1 = i := by exact_mod_cast hEq.symm
    have hsome : objs[q.1]? = some q.2 := List.mem_enum_iff_getElem?.mp hq
    rw [hq1, hget] at hsome
    have ha : q.2 = a := (Option.some.inj hsome).symm
    rw [ha, hact] at hqact
    exact Bool.false_ne_true hqact
  refine ⟨hcell, ?_, ?_⟩
  · intro p hmem
    obtain ⟨j, hj⟩ := mem_query_cases _ p _ hmem
    exact hcell j hj
  · intro ray maxD hmem
    obtain ⟨j, hj⟩ := mem_queryRayFuel_cases _ ray maxD (fuelBound _) _ hmem
    exact hcell j hj

/-- C10: after `BuildInstanced`, every active instance index is stored in
the cell of its clamped position (also for positions outside the grid
bounds) and `Query` at that position returns it. -/
theorem C10_active_in_position_cell (g : UniformGrid) (objs : List Asteroid) (i : ℕ)
    (a : Asteroid) (hwf : WF g) (hget : objs[i]? = some a) (hact : a.isActive = true) :
    (i : ℤ) ∈ (g.BuildInstanced objs).gridCells.getD
      (g.Get1DIndex (g.GetCellIndices a.position).x (g.GetCellIndices a.position).y
        (g.GetCellIndices a.position).z).toNat [] ∧
    (i : ℤ) ∈ (g.BuildInstanced objs).Query a.position := by
  have hr := effRadius_pos a
  have hmin := getCellIndices_mono g (codeBox a).min a.position hwf
    (show a.position.x - effRadius a ≤ a.position.x by linarith)
    (show a.position.y - effRadius a ≤ a.position.y by linarith)
    (show a.position.z - effRadius a ≤ a.position.z by linarith)
  have hmax := getCellIndices_mono g a.position (codeBox a).max hwf
    (show a.position.x ≤ a.position.x + effRadius a by linarith)
    (show a.position.y ≤ a.position.y + effRadius a by linarith)
    (show a.position.z ≤ a.position.z + effRadius a by linarith)
  have hv := center_valid g a.position hwf
  have hmem := buildInstanced_target g objs i a
    ((g.GetCellIndices a.position).x, (g.GetCellIndices a.position).y,
      (g.GetCellIndices a.position).z)
    hwf hget hact hmin.1 hmax.1 hmin.2.1 hmax.2.1 hmin.2.2 hmax.2.2 hv
  refine ⟨hmem, ?_⟩
  have hsg := sameGeom_buildInstanced g objs
  apply mem_query_center (g.BuildInstanced objs) a.position (i : ℤ) (WF_congr hsg hwf)
  rw [GetCellIndices_congr hsg, Get1DIndex_congr hsg]
  exact hmem

/-- C1: if an active object's claimed bounding box (position plus or
minus `max(collisionRadius, 0.5)` on each axis) has both corners in the
same grid cell, then after `BuildInstanced` a `Query` at any position
whose clamped cell is that cell returns the object's index.  (The box
actually inserted uses the effective radius, which never exceeds the
claimed one, so it lies inside the claimed box.) -/
theorem C1_single_cell_query_mem (g : UniformGrid) (objs : List Asteroid) (i : ℕ)
    (a : Asteroid) (p : Vec3) (hwf : WF g) (hget : objs[i]? = some a)
    (hact : a.isActive = true)
    (hcell : g.GetCellIndices ⟨a.position.x - max a.collisionRadius (1/2),
        a.position.y - max a.collisionRadius (1/2),
        a.position.z - max a.collisionRadius (1/2)⟩ =
      g.GetCellIndices ⟨a.position.x + max a.collisionRadius (1/2),
        a.position.y + max a.collisionRadius (1/2),
        a.position.z + max a.collisionRadius (1/2)⟩)
    (hp : g.GetCellIndices p =
      g.GetCellIndices ⟨a.position.x - max a.collisionRadius (1/2),
        a.position.y - max a.collisionRadius (1/2),
        a.position.z - max a.collisionRadius (1/2)⟩) :
    (i : ℤ) ∈ (g.BuildInstanced objs).Query p := by
  have hrle := effRadius_le a
  have hrpos := effRadius_pos a
  have m1 := getCellIndices_mono g
    ⟨a.position.x - max a.collisionRadius (1/2), a.position.y - max a.collisionRadius (1/2),
      a.position.z - max a.collisionRadius (1/2)⟩ (codeBox a).min hwf
    (show a.position.x - max a.collisionRadius (1/2) ≤ a.position.x - effRadius a by linarith)
    (show a.position.y - max a.collisionRadius (1/2) ≤ a.position.y - effRadius a by linarith)
    (show a.position.z - max a.collisionRadius (1/2) ≤ a.position.z - effRadius a by linarith)
  have m2 := getCellIndices_mono g (codeBox a).max
    ⟨a.position.x + max a.collisionRadius (1/2), a.position.y + max a.collisionRadius (1/2),
      a.position.z + max a.collisionRadius (1/2)⟩ hwf
    (show a.position.x + effRadius a ≤ a.position.x + max a.collisionRadius (1/2) by linarith)
    (show a.position.y + effRadius a ≤ a.position.y + max a.collisionRadius (1/2) by linarith)
    (show a.position.z + effRadius a ≤ a.position.z + max a.collisionRadius (1/2) by linarith)
  have m3 := getCellIndices_mono g (codeBox a).min (codeBox a).max hwf
    (show a.position.x - effRadius a ≤ a.position.x + effRadius a by linarith)
    (show a.position.y - effRadius a ≤ a.position.y + effRadius a by linarith)
    (show a.position.z - effRadius a ≤ a.position.z + effRadius a by linarith)
  have hcx := congrArg Vector3Int.x hcell
  have hcy := congrArg Vector3Int.y hcell
  have hcz := congrArg Vector3Int.z hcell
  have hv := center_valid g
    (⟨a.position.x - max a.collisionRadius (1/2), a.position.y - max a.collisionRadius (1/2),
      a.position.z - max a.collisionRadius (1/2)⟩ : Vec3) hwf
  have hmem := buildInstanced_target g objs i a
    ((g.GetCellIndices ⟨a.position.x - max a.collisionRadius (1/2),
        a.position.y - max a.collisionRadius (1/2),
        a.position.z - max a.collisionRadius (1/2)⟩).x,
      (g.GetCellIndices ⟨a.position.x - max a.collisionRadius (1/2),
        a.position.y - max a.collisionRadius (1/2),
        a.position.z - max a.collisionRadius (1/2)⟩).y,
      (g.GetCellIndices ⟨a.position.x - max a.collisionRadius (1/2),
        a.position.y - max a.collisionRadius (1/2),
        a.position.z - max a.collisionRadius (1/2)⟩).z)
    hwf hget hact
    (by dsimp only; omega) (by dsimp only; omega) (by dsimp only; omega)
    (by dsimp only; omega) (by dsimp only; omega) (by dsimp only; omega)
    hv
  have hsg := sameGeom_buildInstanced g objs
  apply mem_query_center (g.BuildInstanced objs) p (i : ℤ) (WF_congr hsg hwf)
  rw [GetCellIndices_congr hsg, Get1DIndex_congr hsg, hp]
  exact hmem

/-- C7: constructing with any non-positive cell-size component behaves
exactly as if that component were `1.0` and does not fail: each dimension
is the ceiling of extent over cell size clamped to at least `1`, and
exactly `totalCells = nx*ny*nz` empty cells are allocated. -/
theorem C7_nonpositive_cell_size_normalized (wm wM cs : Vec3) :
    mkUniformGrid wm wM cs = mkUniformGrid wm wM
      ⟨if cs.x ≤ 0 then 1 else cs.x, if cs.y ≤ 0 then 1 else cs.y,
        if cs.z ≤ 0 then 1 else cs.z⟩ ∧
    (mkUniformGrid wm wM cs).gridDimX =
      max 1 (Int.ceil ((wM.x - wm.x) / (if cs.x ≤ 0 then 1 else cs.x))) ∧
    (mkUniformGrid wm wM cs).gridDimY =
      max 1 (Int.ceil ((wM.y - wm.y) / (if cs.y ≤ 0 then 1 else cs.y))) ∧
    (mkUniformGrid wm wM cs).gridDimZ =
      max 1 (Int.ceil ((wM.z - wm.z) / (if cs.z ≤ 0 then 1 else cs.z))) ∧
    (mkUniformGrid wm wM cs).totalCells =
      (mkUniformGrid wm wM cs).gridDimX * (mkUniformGrid wm wM cs).gridDimY *
        (mkUniformGrid wm wM cs).gridDimZ ∧
    (mkUniformGrid wm wM cs).gridCells =
      List.replicate (mkUniformGrid wm wM cs).totalCells.toNat [] := by
  have ex : (if (if cs.x ≤ 0 then (1:ℚ) else cs.x) ≤ 0 then (1:ℚ)
      else if cs.x ≤ 0 then 1 else cs.x) = if cs.x ≤ 0 then (1:ℚ) else cs.x := by
    split_ifs <;> rfl
  have ey : (if (if cs.y ≤ 0 then (1:ℚ) else cs.y) ≤ 0 then (1:ℚ)
      else if cs.y ≤ 0 then 1 else cs.y) = if cs.y ≤ 0 then (1:ℚ) else cs.y := by
    split_ifs <;> rfl
  have ez : (if (if cs.z ≤ 0 then (1:ℚ) else cs.z) ≤ 0 then (1:ℚ)
      else if cs.z ≤ 0 then 1 else cs.z) = if cs.z ≤ 0 then (1:ℚ) else cs.z := by
    split_ifs <;> rfl
  refine ⟨?_, ?_, ?_, ?_, rfl, rfl⟩
  · show mkUniformGrid wm wM cs = _
    unfold mkUniformGrid
    dsimp only
    rw [ex, ey, ez]
  · show (if Int.ceil ((wM.x - wm.x) / (if cs.x ≤ 0 then (1:ℚ) else cs.x)) ≤ 0 then (1:ℤ)
      else Int.ceil ((wM.x - wm.x) / (if cs.x ≤ 0 then (1:ℚ) else cs.x))) = _
    split_ifs <;> omega
  · show (if Int.ceil ((wM.y - wm.y) / (if cs.y ≤ 0 then (1:ℚ) else cs.y)) ≤ 0 then (1:ℤ)
      else Int.ceil ((wM.y - wm.y) / (if cs.y ≤ 0 then (1:ℚ) else cs.y))) = _
    split_ifs <;> omega
  · show (if Int.ceil ((wM.z - wm.z) / (if cs.z ≤ 0 then (1:ℚ) else cs.z)) ≤ 0 then (1:ℤ)
      else Int.ceil ((wM.z - wm.z) / (if cs.z ≤ 0 then (1:ℚ) else cs.z))) = _
    split_ifs <;> omega

attribute [local semireducible] Rat.mul Rat.inv Rat.add Rat.sub

set_option maxRecDepth 100000
set_option maxHeartbeats 8000000

/-- C2: concrete scenario on the grid with bounds `[-50,50]` on each axis
and cell size `10`: dimensions are `(10,10,10)` and `totalCells` is
`1000`; after building with object `0` at `(5,5,5)`, radius `1`, active,
`Query((4,4,4))` contains `0`, `QueryRay` from `(-60,5,5)` along
`(1,0,0)` with max distance `200` contains `0`, and the same ray with max
distance `50` does not. -/
theorem C2_concrete_scenario :
    (gridC2.gridDimX = 10 ∧ gridC2.gridDimY = 10 ∧ gridC2.gridDimZ = 10 ∧
      gridC2.totalCells = 1000) ∧
    (0 : ℤ) ∈ (gridC2.BuildInstanced [objC2]).Query ⟨4, 4, 4⟩ ∧
    (0 : ℤ) ∈ (gridC2.BuildInstanced [objC2]).QueryRay ⟨⟨-60, 5, 5⟩, ⟨1, 0, 0⟩⟩ 200 ∧
    (0 : ℤ) ∉ (gridC2.BuildInstanced [objC2]).QueryRay ⟨⟨-60, 5, 5⟩, ⟨1, 0, 0⟩⟩ 50 := by
  decide

/-- C6 counterexample: on `gridC6` with the single object in cell
`(1,0,0)` and the diagonal corner ray, the x-first tie-break traversal
and the implemented traversal return different candidate sets, refuting
the claim that the final candidate set is independent of the tie-break
order. -/
theorem C6_counterexample :
    (gridC6.BuildInstanced [objC6]).QueryRayXFirst rayC6 10 ≠
      (gridC6.BuildInstanced [objC6]).QueryRay rayC6 10 := by
  decide

/-- C6 amended: the axis tie-break order can change the final candidate
set, not only the intermediate step order: on `gridC6` the x-first
traversal finds the object in cell `(1,0,0)` while the implemented
traversal (which on ties advances `z`, then `y`, before `x`) misses it. -/
theorem C6_tiebreak_changes_candidates :
    (0 : ℤ) ∈ (gridC6.BuildInstanced [objC6]).QueryRayXFirst rayC6 10 ∧
    (0 : ℤ) ∉ (gridC6.BuildInstanced [objC6]).QueryRay rayC6 10 := by
  decide

/-- Witness for C1: the scenario object occupies a single cell and a
query inside that cell finds it. -/
theorem C1_witness : (0 : ℤ) ∈ (gridC2.BuildInstanced [objC2]).Query ⟨4, 4, 4⟩ :=
  C1_single_cell_query_mem gridC2 [objC2] 0 objC2 ⟨4, 4, 4⟩ (by decide) (by decide)
    (by decide) (by decide) (by decide)

/-- Witness for C3: the inactive scenario object appears in no cell, no
query and no ray query. -/
theorem C3_witness :
    (0 : ℤ) ∉ (gridC2.BuildInstanced [objC2off]).gridCells.getD 555 [] ∧
    (0 : ℤ) ∉ (gridC2.BuildInstanced [objC2off]).Query ⟨5, 5, 5⟩ ∧
    (0 : ℤ) ∉ (gridC2.BuildInstanced [objC2off]).QueryRay ⟨⟨-60, 5, 5⟩, ⟨1, 0, 0⟩⟩ 200 := by
  have h := C3_inactive_absent gridC2 [objC2off] 0 objC2off (by decide) (by decide) (by decide)
  exact ⟨h.1 555, h.2.1 ⟨5, 5, 5⟩, h.2.2 ⟨⟨-60, 5, 5⟩, ⟨1, 0, 0⟩⟩ 200⟩

/-- Witness for C4 at a position far outside the grid bounds. -/
theorem C4_witness :
    (0 ≤ (gridC2.GetCellIndices ⟨999, -999, 3⟩).x ∧
      (gridC2.GetCellIndices ⟨999, -999, 3⟩).x < gridC2.gridDimX) ∧
    (0 ≤ (gridC2.GetCellIndices ⟨999, -999, 3⟩).y ∧
      (gridC2.GetCellIndices ⟨999, -999, 3⟩).y < gridC2.gridDimY) ∧
    (0 ≤ (gridC2.GetCellIndices ⟨999, -999, 3⟩).z ∧
      (gridC2.GetCellIndices ⟨999, -999, 3⟩).z < gridC2.gridDimZ) ∧
    0 ≤ gridC2.Get1DIndex (gridC2.GetCellIndices ⟨999, -999, 3⟩).x
      (gridC2.GetCellIndices ⟨999, -999, 3⟩).y (gridC2.GetCellIndices ⟨999, -999, 3⟩).z ∧
    gridC2.Get1DIndex (gridC2.GetCellIndices ⟨999, -999, 3⟩).x
      (gridC2.GetCellIndices ⟨999, -999, 3⟩).y (gridC2.GetCellIndices ⟨999, -999, 3⟩).z
      < gridC2.totalCells :=
  C4_cell_indices_in_range gridC2 ⟨999, -999, 3⟩ (by decide)

/-- Witness for C8 at a concrete valid coordinate triple. -/
theorem C8_witness :
    0 ≤ gridC2.Get1DIndex 1 2 3 ∧
      gridC2.Get1DIndex 1 2 3 < (gridC2.gridCells.length : ℤ) :=
  C8_valid_index_linear_in_bounds gridC2 1 2 3 (by decide) (by decide)

/-- Witness for C9: seven units of extra fuel leave the scenario ray
query unchanged. -/
theorem C9_witness :
    gridC2.QueryRayFuel ⟨⟨-60, 5, 5⟩, ⟨1, 0, 0⟩⟩ 200 (fuelBound gridC2 + 7) =
      gridC2.QueryRay ⟨⟨-60, 5, 5⟩, ⟨1, 0, 0⟩⟩ 200 :=
  C9_queryRay_fuel_indep gridC2 ⟨⟨-60, 5, 5⟩, ⟨1, 0, 0⟩⟩ 200 7 (by decide)

/-- Witness for C10: the scenario object is stored in the cell of its
position and a query there finds it. -/
theorem C10_witness :
    (0 : ℤ) ∈ (gridC2.BuildInstanced [objC2]).gridCells.getD
      (gridC2.Get1DIndex (gridC2.GetCellIndices objC2.position).x
        (gridC2.GetCellIndices objC2.position).y
        (gridC2.GetCellIndices objC2.position).z).toNat [] ∧
    (0 : ℤ) ∈ (gridC2.BuildInstanced [objC2]).Query objC2.position :=
  C10_active_in_position_cell gridC2 [objC2] 0 objC2 (by decide) (by decide) (by decide)
